import Mathlib

/-!
Verification development for the PR/MR comment-statistics scripts
(`scripts/pr_stats.py`, `scripts/gitlab_mr_stats.py`).

The scripts are embedded shallowly:

* A Python naive `datetime` is a `DT`: an integer calendar-day number
  (`day`, with day 0 fixed to be a Monday, so `weekday = day % 7`
  matches Python's `date.weekday()`) together with the microsecond
  offset within that day (`tod`, invariant `tod < 86400000000`).
  Python's lexicographic (date, time-of-day) comparison coincides with
  comparison of the absolute microsecond count `DT.abs`.
* `timedelta.total_seconds() / 3600` arithmetic is carried out exactly in `ℚ`
  (microseconds divided by 1000000, then by 3600).
* Fallible HTTP fetches are `Except FetchError` inputs; the scripts'
  `try/except` blocks become `match` on those inputs.
-/

/-- Microseconds in one calendar day. -/
def usPerDay : ℕ := 86400000000

/-- A naive `datetime`: calendar day number (day 0 is a Monday) plus
microsecond-of-day. -/
structure DT where
  day : ℤ
  tod : ℕ
  tod_lt : tod < usPerDay

/-- Absolute position of the instant, in microseconds.  Because
`tod < usPerDay`, comparing `abs` agrees with Python's lexicographic
(date, time) comparison of naive datetimes. -/
def DT.abs (t : DT) : ℤ := t.day * (usPerDay : ℤ) + (t.tod : ℤ)

/-- Python's `date.weekday()`: 0 = Monday … 6 = Sunday (day 0 is a Monday). -/
def DT.weekday (t : DT) : ℤ := t.day % 7

/-- `(current + timedelta(days=1)).replace(hour=0, minute=0, second=0,
microsecond=0)`: midnight of the next calendar day. -/
def DT.nextMidnight (t : DT) : DT :=
  ⟨t.day + 1, 0, by simp [usPerDay]⟩

/-- `current.replace(hour=23, minute=59, second=59, microsecond=999999)`:
the last representable microsecond of the current calendar day. -/
def DT.endOfDay (t : DT) : DT :=
  ⟨t.day, 86399999999, by simp [usPerDay]⟩

/-- The `while current.date() < end_time.date(): …` loop of
`calculate_business_hours`, together with the trailing
`if current.date() == end_time.date() and current.weekday() < 5:` step.
Each iteration adds `(end_of_day - current).total_seconds() / 3600` on a
business day and advances `current` to the next midnight. -/
def bhLoop (current endT : DT) : ℚ :=
  if h : current.day < endT.day then
    (if current.weekday < 5 then
        (((current.endOfDay.abs - current.abs : ℤ) : ℚ) / 1000000) / 3600
      else 0)
    + bhLoop current.nextMidnight endT
  else
    if current.day = endT.day ∧ current.weekday < 5 then
      (((endT.abs - current.abs : ℤ) : ℚ) / 1000000) / 3600
    else 0
termination_by (endT.day - current.day).toNat
decreasing_by
  simp only [DT.nextMidnight]
  omega

/-- `calculate_business_hours(start_time, end_time)` from both scripts
(the two copies are line-for-line identical): hours between two naive
datetimes excluding weekends, `0` when `start_time >= end_time`. -/
def calculate_business_hours (start_time end_time : DT) : ℚ :=
  if end_time.abs ≤ start_time.abs then 0
  else bhLoop start_time end_time

/-- The evolution of the loop's carried `current` variable alone:
advance to the next midnight while `current.date() < end_time.date()`.
Its value is the state of `current` at loop exit. -/
def loopExit (current endT : DT) : DT :=
  if _h : current.day < endT.day then loopExit current.nextMidnight endT
  else current
termination_by (endT.day - current.day).toNat
decreasing_by
  simp only [DT.nextMidnight]
  omega

theorem bhLoop_step (c e : DT) (h : c.day < e.day) :
    bhLoop c e =
      (if c.weekday < 5 then
          (((c.endOfDay.abs - c.abs : ℤ) : ℚ) / 1000000) / 3600
        else 0)
      + bhLoop c.nextMidnight e := by
  rw [bhLoop.eq_def]
  rw [dif_pos h]

theorem bhLoop_last (c e : DT) (h : ¬ c.day < e.day) :
    bhLoop c e =
      if c.day = e.day ∧ c.weekday < 5 then
        (((e.abs - c.abs : ℤ) : ℚ) / 1000000) / 3600
      else 0 := by
  rw [bhLoop.eq_def]
  rw [dif_neg h]

theorem loopExit_step (c e : DT) (h : c.day < e.day) :
    loopExit c e = loopExit c.nextMidnight e := by
  rw [loopExit.eq_def]
  rw [dif_pos h]

theorem loopExit_last (c e : DT) (h : ¬ c.day < e.day) :
    loopExit c e = c := by
  rw [loopExit.eq_def]
  rw [dif_neg h]

/-! ### Concrete instants used in the testable-property scenarios -/

/-- Monday 00:00. -/
def monMidnight : DT := ⟨0, 0, by norm_num [usPerDay]⟩

/-- Tuesday 00:00 of the same week. -/
def tueMidnight : DT := ⟨1, 0, by norm_num [usPerDay]⟩

/-- Monday 09:00. -/
def mon9 : DT := ⟨0, 32400000000, by norm_num [usPerDay]⟩

/-- Tuesday 09:00 of the same week. -/
def tue9 : DT := ⟨1, 32400000000, by norm_num [usPerDay]⟩

/-- Friday 17:00. -/
def fri17 : DT := ⟨4, 61200000000, by norm_num [usPerDay]⟩

/-- Friday 23:59:59.999999. -/
def fri235959 : DT := ⟨4, 86399999999, by norm_num [usPerDay]⟩

/-- Monday 00:00 of the following week. -/
def nextMonMidnight : DT := ⟨7, 0, by norm_num [usPerDay]⟩

/-- Monday 09:00 of the following week. -/
def nextMon9 : DT := ⟨7, 32400000000, by norm_num [usPerDay]⟩

theorem cbh_monMidnight_tueMidnight :
    calculate_business_hours monMidnight tueMidnight = 86399999999 / 3600000000 := by
  simp only [calculate_business_hours]
  rw [if_neg (by norm_num [DT.abs, monMidnight, tueMidnight, usPerDay])]
  rw [bhLoop_step _ _ (by norm_num [monMidnight, tueMidnight])]
  rw [bhLoop_last _ _ (by norm_num [DT.nextMidnight, monMidnight, tueMidnight])]
  norm_num [monMidnight, tueMidnight, DT.weekday, DT.abs, DT.endOfDay, DT.nextMidnight, usPerDay]

theorem cbh_mon9_tue9 :
    calculate_business_hours mon9 tue9 = 86399999999 / 3600000000 := by
  simp only [calculate_business_hours]
  rw [if_neg (by norm_num [DT.abs, mon9, tue9, usPerDay])]
  rw [bhLoop_step _ _ (by norm_num [mon9, tue9])]
  rw [bhLoop_last _ _ (by norm_num [DT.nextMidnight, mon9, tue9])]
  norm_num [mon9, tue9, DT.weekday, DT.abs, DT.endOfDay, DT.nextMidnight, usPerDay]

theorem cbh_fri17_nextMon9 :
    calculate_business_hours fri17 nextMon9 = 57599999999 / 3600000000 := by
  simp only [calculate_business_hours]
  rw [if_neg (by norm_num [DT.abs, fri17, nextMon9, usPerDay])]
  rw [bhLoop_step _ _ (by norm_num [fri17, nextMon9])]
  rw [bhLoop_step _ _ (by norm_num [DT.nextMidnight, fri17, nextMon9])]
  rw [bhLoop_step _ _ (by norm_num [DT.nextMidnight, fri17, nextMon9])]
  rw [bhLoop_last _ _ (by norm_num [DT.nextMidnight, fri17, nextMon9])]
  norm_num [fri17, nextMon9, DT.weekday, DT.abs, DT.endOfDay, DT.nextMidnight, usPerDay]

theorem cbh_fri17_fri235959 :
    calculate_business_hours fri17 fri235959 = 25199999999 / 3600000000 := by
  simp only [calculate_business_hours]
  rw [if_neg (by norm_num [DT.abs, fri17, fri235959, usPerDay])]
  rw [bhLoop_last _ _ (by norm_num [fri17, fri235959])]
  norm_num [fri17, fri235959, DT.weekday, DT.abs, usPerDay]

theorem cbh_nextMonMidnight_nextMon9 :
    calculate_business_hours nextMonMidnight nextMon9 = 9 := by
  simp only [calculate_business_hours]
  rw [if_neg (by norm_num [DT.abs, nextMonMidnight, nextMon9, usPerDay])]
  rw [bhLoop_last _ _ (by norm_num [nextMonMidnight, nextMon9])]
  norm_num [nextMonMidnight, nextMon9, DT.weekday, DT.abs, usPerDay]

/-- C1 (counterexample): `calculate_business_hours(Mon 00:00, Tue 00:00)` is not
`24.0`, and the Monday-09:00 → Tuesday-09:00 scenario is not `24.0` either: the
walk caps each day at 23:59:59.999999, so one full business day yields
86399999999/3600000000 hours (one microsecond short of 24). -/
theorem C1_counterexample :
    calculate_business_hours monMidnight tueMidnight ≠ 24 ∧
    calculate_business_hours mon9 tue9 ≠ 24 := by
  refine ⟨?_, ?_⟩
  · rw [cbh_monMidnight_tueMidnight]; norm_num
  · rw [cbh_mon9_tue9]; norm_num

/-- C1 (amended): both the Monday-midnight → Tuesday-midnight span and the
Monday-09:00 → Tuesday-09:00 span evaluate to exactly 86399999999/3600000000
business hours (≈ 23.9999999997, i.e. 24 hours minus one microsecond), because
each full day's contribution runs only to 23:59:59.999999. -/
theorem C1_amended :
    calculate_business_hours monMidnight tueMidnight = 86399999999 / 3600000000 ∧
    calculate_business_hours mon9 tue9 = 86399999999 / 3600000000 :=
  ⟨cbh_monMidnight_tueMidnight, cbh_mon9_tue9⟩

/-- C6: the Friday-17:00 → next-Monday-09:00 span equals the sum of the
Friday-17:00 → Friday-23:59:59.999999 span and the Monday-00:00 →
Monday-09:00 span; and in general, an iteration of the walk that starts on a
Saturday or Sunday (weekday ≥ 5) contributes exactly 0 to the total. -/
theorem C6_weekend_contributes_zero :
    (calculate_business_hours fri17 nextMon9 =
      calculate_business_hours fri17 fri235959 +
        calculate_business_hours nextMonMidnight nextMon9) ∧
    ∀ c e : DT, c.day < e.day → 5 ≤ c.weekday →
      bhLoop c e = bhLoop c.nextMidnight e := by
  refine ⟨?_, ?_⟩
  · rw [cbh_fri17_nextMon9, cbh_fri17_fri235959, cbh_nextMonMidnight_nextMon9]
    norm_num
  · intro c e h hw
    rw [bhLoop_step c e h, if_neg (by omega), zero_add]

/-- C6 witness: a concrete Saturday (day 5) strictly before the end date
contributes 0 to the walk. -/
theorem C6_witness :
    bhLoop ⟨5, 0, by norm_num [usPerDay]⟩ ⟨7, 0, by norm_num [usPerDay]⟩ =
      bhLoop (DT.nextMidnight ⟨5, 0, by norm_num [usPerDay]⟩)
        ⟨7, 0, by norm_num [usPerDay]⟩ :=
  C6_weekend_contributes_zero.2
    ⟨5, 0, by norm_num [usPerDay]⟩ ⟨7, 0, by norm_num [usPerDay]⟩
    (by norm_num) (by norm_num [DT.weekday])

/-- C7: whenever `start >= end` (in the model: `end.abs ≤ start.abs`, which
coincides with Python's datetime comparison), `calculate_business_hours`
returns 0; being a total Lean function, it does not fail. -/
theorem C7_nonpositive_interval_zero :
    ∀ s e : DT, e.abs ≤ s.abs → calculate_business_hours s e = 0 := by
  intro s e h
  simp only [calculate_business_hours]
  rw [if_pos h]

/-- C7 witness: a strictly backwards interval and a zero-length interval both
give 0. -/
theorem C7_witness :
    calculate_business_hours tue9 mon9 = 0 ∧
    calculate_business_hours mon9 mon9 = 0 :=
  ⟨C7_nonpositive_interval_zero tue9 mon9
      (by norm_num [DT.abs, tue9, mon9, usPerDay]),
    C7_nonpositive_interval_zero mon9 mon9 (le_refl _)⟩

theorem loopExit_char (n : ℕ) :
    ∀ s e : DT, (e.day - s.day).toNat = n → s.day ≤ e.day →
      (loopExit s e).day = e.day ∧
      (s.day < e.day → (loopExit s e).tod = 0) ∧
      (s.day = e.day → loopExit s e = s) := by
  induction n with
  | zero =>
    intro s e hn hle
    have hnl : ¬ s.day < e.day := by omega
    rw [loopExit_last s e hnl]
    exact ⟨by omega, fun h => absurd h hnl, fun _ => rfl⟩
  | succ n ih =>
    intro s e hn hle
    have hlt : s.day < e.day := by omega
    rw [loopExit_step s e hlt]
    have hday : s.nextMidnight.day = s.day + 1 := by simp [DT.nextMidnight]
    have hgap : (e.day - s.nextMidnight.day).toNat = n := by
      rw [hday]; omega
    have hle' : s.nextMidnight.day ≤ e.day := by rw [hday]; omega
    obtain ⟨h1, h2, h3⟩ := ih s.nextMidnight e hgap hle'
    refine ⟨h1, fun _ => ?_, fun heq => absurd heq (by omega)⟩
    by_cases hc : s.nextMidnight.day < e.day
    · exact h2 hc
    · have heq2 : s.nextMidnight.day = e.day := by omega
      rw [h3 heq2]
      simp [DT.nextMidnight]

/-- C9: the walk of `calculate_business_hours` terminates.  Each iteration
advances the carried instant's calendar date by exactly one day (first
conjunct, stated on `bhLoop` itself), and for `start.day ≤ end.day` — which
holds whenever `start < end` — the carried instant at loop exit (`loopExit`)
has exactly `end`'s calendar date, is at midnight of that date when at least
one iteration ran, and is `start` itself when `start` and `end` share a
date. -/
theorem C9_walk_terminates :
    (∀ c e : DT, c.day < e.day →
      c.nextMidnight.day = c.day + 1 ∧
      bhLoop c e =
        (if c.weekday < 5 then
            (((c.endOfDay.abs - c.abs : ℤ) : ℚ) / 1000000) / 3600
          else 0) + bhLoop c.nextMidnight e) ∧
    (∀ s e : DT, s.day ≤ e.day →
      (loopExit s e).day = e.day ∧
      (s.day < e.day → (loopExit s e).tod = 0) ∧
      (s.day = e.day → loopExit s e = s)) := by
  refine ⟨fun c e h => ⟨by simp [DT.nextMidnight], bhLoop_step c e h⟩, ?_⟩
  intro s e hle
  exact loopExit_char (e.day - s.day).toNat s e rfl hle

/-- C9 witness: for the Monday-09:00 → Tuesday-09:00 pair the walk exits with
the carried instant at Tuesday's date, at midnight. -/
theorem C9_witness :
    (loopExit mon9 tue9).day = tue9.day ∧
    (mon9.day < tue9.day → (loopExit mon9 tue9).tod = 0) ∧
    (mon9.day = tue9.day → loopExit mon9 tue9 = mon9) :=
  C9_walk_terminates.2 mon9 tue9 (by norm_num [mon9, tue9])

/-! ### Notes, the review-event classifier, and the earliest-event selector -/

/-- One GitLab note as the classifier sees it: timestamp, body text
(`note.get('body', '')`, a Python string modelled as its character list) and
the `system` flag (`note.get('system', False)`: an absent flag is `false`). -/
structure Note where
  time : DT
  body : List Char
  system : Bool

/-- Python's substring test `p in s`. -/
def containsSub (p s : List Char) : Bool :=
  s.tails.any fun t => p.isPrefixOf t

/-- `note_body = note.get('body', '').lower()`. -/
def lowerBody (n : Note) : List Char :=
  n.body.map Char.toLower

/-- The `is_review_activity` condition of `gitlab_mr_stats.get_first_review_time`:
not system-generated, or the lowered body contains one of the
approval/rejection/merge/close phrases. -/
def is_review_activity (n : Note) : Bool :=
  !n.system
  || containsSub (("approved this merge request").toList) (lowerBody n)
  || containsSub (("unapproved this merge request").toList) (lowerBody n)
  || containsSub (("requested changes").toList) (lowerBody n)
  || containsSub (("rejected").toList) (lowerBody n)
  || containsSub (("merged").toList) (lowerBody n)
  || containsSub (("closed").toList) (lowerBody n)

/-- The `is_review_request` condition: the lowered body contains
"requested review" or "removed review request". -/
def is_review_request (n : Note) : Bool :=
  containsSub (("requested review").toList) (lowerBody n)
  || containsSub (("removed review request").toList) (lowerBody n)

/-- `if is_review_activity and not is_review_request:` — whether the note
enters `review_activities`. -/
def noteIncluded (n : Note) : Bool :=
  is_review_activity n && !is_review_request n

/-- Sort key comparison used by `review_activities.sort(key=lambda x: x['time'])`. -/
def timeLe (a b : DT) : Bool :=
  decide (a.abs ≤ b.abs)

/-- The GitLab earliest-event selector:
`review_activities.sort(key=…); earliest = review_activities[0]['time']`,
`None` when the candidate list is empty.  Candidates are represented by their
timestamps (the only field the selector's result exposes). -/
def earliestEvent (acts : List DT) : Option DT :=
  (acts.mergeSort timeLe).head?

/-- The GitHub selection in `pr_stats.get_first_review_time`: the first item
of the review-comments list is a candidate; the first item of the formal
reviews list replaces it when strictly earlier (`first_review_time <
earliest_review_time`) or when there was no comment candidate. -/
def github_select_earliest (comments reviews : List DT) : Option DT :=
  let earliest := comments.head?
  match reviews.head? with
  | none => earliest
  | some r =>
    match earliest with
    | none => some r
    | some c => if r.abs < c.abs then some r else some c

/-! ### Fallible fetches and the per-request statistics -/

/-- The exception classes caught by the scripts' `except` clauses. -/
inductive FetchError where
  | httpError
  | requestError
  | unexpected

/-- The fields of the MR detail payload that
`gitlab_mr_stats.get_first_review_time` inspects before probing approvals. -/
structure MRDetail where
  merge_status_can_be_merged : Bool
  detailed_merge_status_mergeable : Bool

/-- `gitlab_mr_stats.get_first_review_time`, with each HTTP fetch an explicit
`Except` input.  A failing notes fetch or MR-detail fetch is caught by the
outer `try/except` and yields `None`; a failing approvals probe is swallowed
by the inner bare `except: pass` and contributes no candidates.  Approvals
lacking a truthy `created_at` (`none` entries) are skipped. -/
def gitlab_get_first_review_time (mr_created_at : DT)
    (notesFetch : Except FetchError (List Note))
    (mrFetch : Except FetchError MRDetail)
    (approvalsFetch : Except FetchError (List (Option DT))) : Option ℚ :=
  match notesFetch with
  | .error _ => none
  | .ok notes =>
    let review_activities := (notes.filter noteIncluded).map Note.time
    match mrFetch with
    | .error _ => none
    | .ok mr =>
      let withApprovals :=
        if mr.merge_status_can_be_merged || mr.detailed_merge_status_mergeable then
          match approvalsFetch with
          | .error _ => review_activities
          | .ok approvals => review_activities ++ approvals.filterMap id
        else review_activities
      match earliestEvent withApprovals with
      | none => none
      | some t => some (calculate_business_hours mr_created_at t)

/-- `gitlab_mr_stats.get_review_comment_count`: the number of notes whose
`system` flag is falsy, or the sentinel `0` when the notes fetch fails. -/
def gitlab_get_review_comment_count
    (notesFetch : Except FetchError (List Note)) : ℕ :=
  match notesFetch with
  | .error _ => 0
  | .ok notes => (notes.filter fun n => !n.system).length

/-- `pr_stats.get_first_review_time`: review comments and formal reviews are
fetched in sequence (items represented by their timestamps); an error in
either fetch is caught by the shared `try/except` and yields `None`. -/
def github_get_first_review_time (pr_created_at : DT)
    (commentsFetch reviewsFetch : Except FetchError (List DT)) : Option ℚ :=
  match commentsFetch with
  | .error _ => none
  | .ok comments =>
    match reviewsFetch with
    | .error _ => none
    | .ok reviews =>
      match github_select_earliest comments reviews with
      | none => none
      | some t => some (calculate_business_hours pr_created_at t)

/-- `pr_stats.get_review_comment_count`: the length of the review-comments
list, or the sentinel `0` when the fetch fails. -/
def github_get_review_comment_count
    (commentsFetch : Except FetchError (List DT)) : ℕ :=
  match commentsFetch with
  | .error _ => 0
  | .ok comments => comments.length

/-! ### The aggregator (the tail of both scripts' `main`) -/

/-- `has_comments or has_reviews`: the per-request activity test. -/
def has_activity (comment_count : ℕ) (review_time : Option ℚ) : Bool :=
  decide (0 < comment_count) || review_time.isSome

/-- The activity subset: the (comment count, review time) pairs, in input
order, of the requests with `comment_counts[i] > 0 or review_times[i] is not
None`. -/
def activity_subset (stats : List (ℕ × Option ℚ)) : List (ℕ × Option ℚ) :=
  stats.filter fun p => has_activity p.1 p.2

/-- `sum(activity_comment_counts) / len(activity_comment_counts)` when the
activity subset is nonempty, `none` for the "no comments found" sentinel. -/
def avg_comments (stats : List (ℕ × Option ℚ)) : Option ℚ :=
  let sub := activity_subset stats
  if sub.length = 0 then none
  else some ((((sub.map Prod.fst).sum : ℕ) : ℚ) / (sub.length : ℚ))

/-- Mean of the non-`None` review times of the activity subset, `none` for
the "no reviews found" sentinel. -/
def avg_review_time (stats : List (ℕ × Option ℚ)) : Option ℚ :=
  let valid := (activity_subset stats).filterMap Prod.snd
  if valid.length = 0 then none
  else some (valid.sum / (valid.length : ℚ))

/-! ### Claims about the classifier and the aggregator -/

/-- The aggregator input of the spec's scenario: per-request comment counts
`[0, 5, 0]` paired with review times `[None, 2.0, 3.0]`. -/
def c2stats : List (ℕ × Option ℚ) := [(0, none), (5, some 2), (0, some 3)]

theorem activity_subset_c2 :
    activity_subset c2stats = [(5, some 2), (0, some 3)] := by
  simp [activity_subset, c2stats, has_activity]

theorem avg_comments_c2 : avg_comments c2stats = some (5 / 2) := by
  rw [avg_comments, activity_subset_c2]
  norm_num

theorem avg_review_time_c2 : avg_review_time c2stats = some (5 / 2) := by
  rw [avg_review_time, activity_subset_c2]
  norm_num [List.filterMap_cons]

/-- C2 (counterexample): on counts `[0, 5, 0]` and review times
`[None, 2.0, 3.0]` the mean comment count over the activity subset is 5/2,
not 5.0: index 2 (zero comments, review time 3.0) is in the subset and its
zero comment count enters the mean. -/
theorem C2_counterexample :
    avg_comments c2stats ≠ some 5 ∧ avg_comments c2stats = some (5 / 2) := by
  refine ⟨?_, avg_comments_c2⟩
  rw [avg_comments_c2]
  intro h
  rw [Option.some_inj] at h
  norm_num at h

/-- C2 (amended): the activity subset is exactly the pairs at indices 1 and 2,
the mean comment count over that subset is 5/2 = 2.5 (index 2 contributes its
zero count), and the mean review time over the non-null values is 5/2 = 2.5. -/
theorem C2_amended :
    activity_subset c2stats = [(5, some 2), (0, some 3)] ∧
    avg_comments c2stats = some (5 / 2) ∧
    avg_review_time c2stats = some (5 / 2) :=
  ⟨activity_subset_c2, avg_comments_c2, avg_review_time_c2⟩

/-- A non-system note whose body is exactly "requested review". -/
def reqReviewNote : Note := ⟨monMidnight, ("requested review").toList, false⟩

/-- C3 (counterexample): a non-system comment is not always included — the
non-system note with body "requested review" is rejected by the
review-request exclusion even though its system flag is false. -/
theorem C3_counterexample :
    reqReviewNote.system = false ∧ noteIncluded reqReviewNote = false := by
  refine ⟨rfl, ?_⟩
  decide

/-- C3 (amended): a non-system comment is included as a review-relevant
candidate unless its body triggers the review-request exclusion
(`is_review_request`: the lowered body contains "requested review" or
"removed review request"). -/
theorem C3_amended :
    ∀ n : Note, n.system = false → is_review_request n = false →
      noteIncluded n = true := by
  intro n h1 h2
  unfold noteIncluded is_review_activity
  rw [h1, h2]
  rfl

/-- C3 witness: a concrete non-system note with an ordinary body is included. -/
theorem C3_witness :
    noteIncluded ⟨monMidnight, ("looks good to me").toList, false⟩ = true :=
  C3_amended ⟨monMidnight, ("looks good to me").toList, false⟩ rfl (by decide)

/-- C4: any note whose lowered body contains "requested review" or
"removed review request" is excluded from the review-relevant candidates,
whatever its system flag and whatever other phrases the body contains. -/
theorem C4_review_request_always_excluded :
    ∀ n : Note,
      (containsSub (("requested review").toList) (lowerBody n) = true ∨
        containsSub (("removed review request").toList) (lowerBody n) = true) →
      noteIncluded n = false := by
  intro n h
  have hr : is_review_request n = true := by
    unfold is_review_request
    rcases h with h | h
    · rw [h]; rfl
    · rw [h]; exact Bool.or_true _
  unfold noteIncluded
  rw [hr]
  exact Bool.and_false _

/-- C4 witness: a non-system note (inclusion criterion (a) holds) whose body
contains "requested review" is nevertheless excluded. -/
theorem C4_witness :
    noteIncluded ⟨monMidnight, ("Bob requested review from Alice").toList, false⟩
      = false :=
  C4_review_request_always_excluded
    ⟨monMidnight, ("Bob requested review from Alice").toList, false⟩
    (Or.inl (by decide))

/-! ### The earliest-event selector -/

/-- An event timestamped one hour into Monday. -/
def hour1 : DT := ⟨0, 3600000000, by norm_num [usPerDay]⟩

/-- An event timestamped five hours into Monday. -/
def hour5 : DT := ⟨0, 18000000000, by norm_num [usPerDay]⟩

/-- C5 (counterexample): on the GitHub path the selected instant is not the
minimum over all items of both lists — with review comments ordered
`[hour5, hour1]` and no formal reviews, the selection is `hour5` (the first
list item), although `hour1` is in the list with a strictly smaller
timestamp. -/
theorem C5_counterexample :
    github_select_earliest [hour5, hour1] [] = some hour5 ∧
    hour1 ∈ [hour5, hour1] ∧ hour1.abs < hour5.abs := by
  refine ⟨rfl, by simp, ?_⟩
  norm_num [DT.abs, hour1, hour5, usPerDay]

theorem timeLe_trans :
    ∀ a b c : DT, timeLe a b → timeLe b c → timeLe a c := by
  intro a b c hab hbc
  simp only [timeLe, decide_eq_true_eq] at *
  omega

theorem timeLe_total : ∀ a b : DT, timeLe a b || timeLe b a := by
  intro a b
  simp only [timeLe, Bool.or_eq_true, decide_eq_true_eq]
  omega

/-- C5 (amended): the GitLab selector returns the minimum-timestamp element
of the full candidate list (`none` exactly when the list is empty); the
GitHub selector considers only the first item of the review-comments list and
the first item of the formal-reviews list: it returns `none` exactly when both
lists are empty, and otherwise the earlier of the two first items — which is
the minimum over all items only when each list is sorted by timestamp. -/
theorem C5_amended :
    (∀ acts : List DT,
      (earliestEvent acts = none ↔ acts = []) ∧
      ∀ a : DT, earliestEvent acts = some a →
        a ∈ acts ∧ ∀ b ∈ acts, a.abs ≤ b.abs) ∧
    (∀ comments reviews : List DT,
      (github_select_earliest comments reviews = none ↔
        comments = [] ∧ reviews = []) ∧
      ∀ t : DT, github_select_earliest comments reviews = some t →
        (comments.head? = some t ∨ reviews.head? = some t) ∧
        (∀ c, comments.head? = some c → t.abs ≤ c.abs) ∧
        (∀ r, reviews.head? = some r → t.abs ≤ r.abs)) := by
  constructor
  · intro acts
    constructor
    · simp only [earliestEvent, List.head?_eq_none_iff]
      constructor
      · intro h
        have h3 := congrArg List.length h
        simp at h3
        exact h3
      · intro h
        rw [h]
        simp
    · intro a ha
      simp only [earliestEvent] at ha
      have hs : (acts.mergeSort timeLe).Pairwise (fun p q => timeLe p q = true) :=
        List.sorted_mergeSort timeLe_trans timeLe_total acts
      cases hms : acts.mergeSort timeLe with
      | nil => rw [hms] at ha; simp at ha
      | cons x xs =>
        rw [hms] at ha
        simp only [List.head?_cons, Option.some_inj] at ha
        rw [hms] at hs
        have hmem : a ∈ acts := by
          have hx : a ∈ acts.mergeSort timeLe := by
            rw [hms, ← ha]
            exact List.mem_cons_self x xs
          exact List.mem_mergeSort.mp hx
        refine ⟨hmem, fun b hb => ?_⟩
        have hb2 : b ∈ x :: xs := by
          rw [← hms]
          exact List.mem_mergeSort.mpr hb
        rcases List.mem_cons.mp hb2 with hb3 | hb3
        · rw [hb3, ← ha]
        · have hxb := (List.pairwise_cons.mp hs).1 b hb3
          rw [← ha]
          simpa [timeLe] using hxb
  · intro comments reviews
    constructor
    · cases comments with
      | nil =>
        cases reviews with
        | nil => simp [github_select_earliest]
        | cons r rs => simp [github_select_earliest]
      | cons c cs =>
        cases reviews with
        | nil => simp [github_select_earliest]
        | cons r rs =>
          simp only [github_select_earliest, List.head?_cons]
          by_cases hrc : r.abs < c.abs <;> simp [hrc]
    · intro t ht
      cases comments with
      | nil =>
        cases reviews with
        | nil => simp [github_select_earliest] at ht
        | cons r rs =>
          simp only [github_select_earliest, List.head?_cons,
            List.head?_nil, Option.some_inj] at ht
          subst ht
          refine ⟨Or.inr rfl, fun c hc => by simp at hc, fun r' hr' => ?_⟩
          simp only [List.head?_cons, Option.some_inj] at hr'
          rw [hr']
      | cons c cs =>
        cases reviews with
        | nil =>
          simp only [github_select_earliest, List.head?_cons,
            List.head?_nil, Option.some_inj] at ht
          subst ht
          refine ⟨Or.inl rfl, fun c' hc' => ?_, fun r' hr' => by simp at hr'⟩
          simp only [List.head?_cons, Option.some_inj] at hc'
          rw [hc']
        | cons r rs =>
          simp only [github_select_earliest, List.head?_cons] at ht
          by_cases hrc : r.abs < c.abs
          · rw [if_pos hrc, Option.some_inj] at ht
            subst ht
            refine ⟨Or.inr rfl, fun c' hc' => ?_, fun r' hr' => ?_⟩
            · simp only [List.head?_cons, Option.some_inj] at hc'
              rw [← hc']
              omega
            · simp only [List.head?_cons, Option.some_inj] at hr'
              rw [hr']
          · rw [if_neg hrc, Option.some_inj] at ht
            subst ht
            refine ⟨Or.inl rfl, fun c' hc' => ?_, fun r' hr' => ?_⟩
            · simp only [List.head?_cons, Option.some_inj] at hc'
              rw [hc']
            · simp only [List.head?_cons, Option.some_inj] at hr'
              rw [← hr']
              omega

/-- C5 witness: on the singleton candidate list the GitLab selector returns
its element, which is trivially the minimum. -/
theorem C5_witness :
    hour1 ∈ [hour1] ∧ ∀ b ∈ [hour1], hour1.abs ≤ b.abs :=
  (C5_amended.1 [hour1]).2 hour1 (by simp [earliestEvent])

/-! ### Error handling and the GitLab comment count -/

theorem activity_subset_sentinel (before after : List (ℕ × Option ℚ)) :
    activity_subset (before ++ (0, none) :: after) =
      activity_subset (before ++ after) := by
  simp [activity_subset, List.filter_append, List.filter_cons, has_activity]

/-- C8: a failing per-item fetch is caught at that fetch and becomes a
sentinel — comment count 0, review time `none` — on both platforms (on the
GitHub path an error in either of the two sequential fetches yields `none`),
and a request carrying exactly those sentinel values is dropped from the
activity subset, so the aggregate statistics equal the ones computed over the
remaining items alone: the error never reaches the aggregator. -/
theorem C8_per_item_errors_are_sentinels :
    ∀ (e : FetchError) (created : DT)
      (mrFetch : Except FetchError MRDetail)
      (approvalsFetch : Except FetchError (List (Option DT)))
      (cf : Except FetchError (List DT))
      (before after : List (ℕ × Option ℚ)),
      gitlab_get_first_review_time created (.error e) mrFetch approvalsFetch
        = none ∧
      gitlab_get_review_comment_count (.error e) = 0 ∧
      github_get_first_review_time created (.error e) cf = none ∧
      github_get_first_review_time created cf (.error e) = none ∧
      github_get_review_comment_count (.error e) = 0 ∧
      avg_comments (before ++
        (gitlab_get_review_comment_count (.error e),
          gitlab_get_first_review_time created (.error e) mrFetch approvalsFetch)
        :: after) = avg_comments (before ++ after) ∧
      avg_review_time (before ++
        (gitlab_get_review_comment_count (.error e),
          gitlab_get_first_review_time created (.error e) mrFetch approvalsFetch)
        :: after) = avg_review_time (before ++ after) := by
  intro e created mrFetch approvalsFetch cf before after
  refine ⟨rfl, rfl, rfl, ?_, rfl, ?_, ?_⟩
  · cases cf <;> rfl
  · show avg_comments (before ++ (0, none) :: after) = _
    simp only [avg_comments]
    rw [activity_subset_sentinel]
  · show avg_review_time (before ++ (0, none) :: after) = _
    simp only [avg_review_time]
    rw [activity_subset_sentinel]

/-- C10: the GitLab per-request comment count is the number of notes whose
`system` flag is falsy; when every note is a system note the count is 0, and
such a request passes the activity test exactly when its review time is
non-null. -/
theorem C10_system_notes_never_counted :
    ∀ (notes : List Note) (rt : Option ℚ),
      gitlab_get_review_comment_count (.ok notes) =
        (notes.filter fun n => !n.system).length ∧
      ((∀ n ∈ notes, n.system = true) →
        gitlab_get_review_comment_count (.ok notes) = 0 ∧
        has_activity (gitlab_get_review_comment_count (.ok notes)) rt
          = rt.isSome) := by
  intro notes rt
  refine ⟨rfl, fun h => ?_⟩
  have hz : gitlab_get_review_comment_count (.ok notes) = 0 := by
    show (notes.filter fun n => !n.system).length = 0
    rw [List.length_eq_zero, List.filter_eq_nil_iff]
    intro n hn
    simp [h n hn]
  refine ⟨hz, ?_⟩
  rw [hz]
  simp [has_activity]

/-- A system note recording an approval. -/
def sysApprovedNote : Note := ⟨mon9, ("approved this merge request").toList, true⟩

/-- C10 witness: a request whose only note is a system approval note has
comment count 0, yet passes the activity test via a non-null review time. -/
theorem C10_witness :
    gitlab_get_review_comment_count (.ok [sysApprovedNote]) = 0 ∧
    has_activity (gitlab_get_review_comment_count (.ok [sysApprovedNote]))
      (some 1) = (some (1 : ℚ)).isSome :=
  (C10_system_notes_never_counted [sysApprovedNote] (some 1)).2
    (by
      intro n hn
      simp only [List.mem_singleton] at hn
      rw [hn]
      rfl)
